import Mathlib

/-!
Verification of the `de-hw2` lab-results pipeline.

The repository holds three revisions of one batch job that reads lab test
results, normalizes the raw values, classifies each result against a
reference range, aggregates "bad" results per patient, and reports the
patients above a threshold:

* `decode_patients.py` — the first ad hoc pandas script;
* `decode_patients_pandas.py` — the pandas-idiomatic rewrite;
* `decode_patients_sql.py` — the revision pushed entirely into SQL.

Below, each relevant function of the three files is translated into a pure
Lean definition over lists of rows.  Machine floats are modelled by `ℚ`
(the pipeline only parses decimal literals and compares them, which agrees
with float semantics on such values), and code that can raise a Python or
SQL exception returns `Option` with `none` for the raised case.
-/

set_option maxHeartbeats 1000000

/-! ## Characters and strings

Python's `str.lower`, modelled on the alphabets that occur in the data:
ASCII letters and the Russian alphabet.  All other characters are kept
unchanged (they are already caseless for the inputs at hand). -/

/-- Uppercase/lowercase pairs for ASCII and Cyrillic letters. -/
def lowerPairs : List (Char × Char) :=
  [('A', 'a'), ('B', 'b'), ('C', 'c'), ('D', 'd'), ('E', 'e'), ('F', 'f'),
   ('G', 'g'), ('H', 'h'), ('I', 'i'), ('J', 'j'), ('K', 'k'), ('L', 'l'),
   ('M', 'm'), ('N', 'n'), ('O', 'o'), ('P', 'p'), ('Q', 'q'), ('R', 'r'),
   ('S', 's'), ('T', 't'), ('U', 'u'), ('V', 'v'), ('W', 'w'), ('X', 'x'),
   ('Y', 'y'), ('Z', 'z'),
   ('А', 'а'), ('Б', 'б'), ('В', 'в'), ('Г', 'г'), ('Д', 'д'), ('Е', 'е'),
   ('Ж', 'ж'), ('З', 'з'), ('И', 'и'), ('Й', 'й'), ('К', 'к'), ('Л', 'л'),
   ('М', 'м'), ('Н', 'н'), ('О', 'о'), ('П', 'п'), ('Р', 'р'), ('С', 'с'),
   ('Т', 'т'), ('У', 'у'), ('Ф', 'ф'), ('Х', 'х'), ('Ц', 'ц'), ('Ч', 'ч'),
   ('Ш', 'ш'), ('Щ', 'щ'), ('Ъ', 'ъ'), ('Ы', 'ы'), ('Ь', 'ь'), ('Э', 'э'),
   ('Ю', 'ю'), ('Я', 'я'), ('Ё', 'ё')]

/-- One character of Python `str.lower`. -/
def ruLowerChar (c : Char) : Char :=
  match lowerPairs.find? (fun p => p.1 == c) with
  | some p => p.2
  | none => c

/-- Python `str.lower` over a whole string. -/
def lowerStr (s : String) : String := ⟨s.data.map ruLowerChar⟩

/-- Python `str.startswith` with a one-character pattern. -/
def startsWithChar (s : String) (c : Char) : Bool :=
  match s.data with
  | [] => false
  | d :: _ => d == c

/-- ASCII decimal digit test (the `str.isdigit` cases arising here). -/
def isDigitChar (c : Char) : Bool := '0' ≤ c && c ≤ '9'

/-- Python `str.replace(".", "", 1)`: drop the first dot only. -/
def removeFirstDot : List Char → List Char
  | [] => []
  | c :: cs => if c == '.' then cs else c :: removeFirstDot cs

/-- The numeric mask of `decode_patients_pandas.check_range`:
`x.replace(".", "", 1).isdigit()`. -/
def pyNumericMask (s : String) : Bool :=
  let t := removeFirstDot s.data
  !t.isEmpty && t.all isDigitChar

/-- Split a character list at its first dot; `none` when there is no dot. -/
def splitFirstDot : List Char → List Char × Option (List Char)
  | [] => ([], none)
  | c :: cs =>
    if c == '.' then ([], some cs)
    else
      let r := splitFirstDot cs
      (c :: r.1, r.2)

/-- Value of a digit string read in base 10. -/
def digitsVal (l : List Char) : Nat :=
  l.foldl (fun n c => 10 * n + (c.toNat - '0'.toNat)) 0

/-- The rational `intPart.fracPart` (built without `Rat` division so that
it evaluates inside the kernel). -/
def decimalToQ (intPart fracPart : List Char) : ℚ :=
  mkRat (digitsVal intPart * 10 ^ fracPart.length + digitsVal fracPart)
    (10 ^ fracPart.length)

/-- Parse an unsigned decimal literal (digits with at most one dot, at
least one digit); `none` on anything else.  This is the common core of
Python `float` and of the SQL `CAST(.. AS FLOAT)` on the strings the
pipeline feeds them. -/
def pyFloatCore (l : List Char) : Option ℚ :=
  let p := splitFirstDot l
  let frac := p.2.getD []
  if !(p.1 ++ frac).isEmpty && p.1.all isDigitChar && frac.all isDigitChar then
    some (decimalToQ p.1 frac)
  else none

/-- Python `float` on optionally signed decimal literals.  (Python also
accepts exponents, `inf`, and whitespace, none of which reach a `float`
call in this pipeline.) -/
def pyFloat (s : String) : Option ℚ :=
  match s.data with
  | '-' :: rest => (pyFloatCore rest).map (fun q => -q)
  | '+' :: rest => pyFloatCore rest
  | l => pyFloatCore l

/-- The spreadsheet-load step of `decode_patients_sql.py`:
`str(row["Значение"]).replace(",", ".")` — every comma becomes a period. -/
def sqlLoadValue (s : String) : String :=
  ⟨s.data.map (fun c => if c == ',' then '.' else c)⟩

/-! ## Data model -/

/-- One row of the `de.med_an_name` reference table (columns `0..4` of the
frame fetched by `get_med_an_name`): test id, test name, kind, min, max. -/
structure MedRef where
  id : String
  name : String
  kind : String
  min_value : ℚ
  max_value : ℚ
deriving DecidableEq, Repr

/-- One row of the main data frame in the pandas revisions: patient code,
test id (`Анализ`), raw value (`Значение`), and the `Заключение` cell
(`none` while the column has not been written). -/
structure PRow where
  patient : Nat
  test : String
  value : String
  concl : Option String
deriving DecidableEq, Repr

/-- One row of the first revision's frame: its extra column is `Повышен`
with cells `True` / `False` / `None`. -/
structure Row1 where
  patient : Nat
  test : String
  value : String
  check : Option Bool
deriving DecidableEq, Repr

/-- One row of the `medicine` temp table in the SQL revision. -/
structure SqlRow where
  patient : Nat
  test : String
  value : String
deriving DecidableEq, Repr

/-- One row of the `decoded_data` temp table in the SQL revision. -/
structure DecodedRow where
  patient : Nat
  test : String
  name : String
  concl : String
deriving DecidableEq, Repr

/-! ## `filter_patients` (identical in `decode_patients.py` and
`decode_patients_pandas.py`)

`groups = df.groupby("Код пациента").size()`;
`pat_codes = groups[groups >= test_count]`;
`df[df["Код пациента"].isin(pat_codes.index)]` — keep the rows whose
patient occurs at least `test_count` times in the frame.  The definition
is generic in the row type so that one definition serves both files. -/

def filterPatients (pat : α → Nat) (df : List α) (test_count : Nat) : List α :=
  df.filter (fun r => test_count ≤ df.countP (fun r2 => pat r2 == pat r))

/-! ## `clean_values` -/

/-- `decode_patients.py` `clean_values`, per cell: lower-case, then a value
starting with `п` becomes `"+"`, then a value starting with `о` becomes
`"-"` (the vocabulary is `{"+": "п", "-": "о"}`). -/
def clean1Value (s : String) : String :=
  let v0 := lowerStr s
  let v1 := if startsWithChar v0 'п' then "+" else v0
  if startsWithChar v1 'о' then "-" else v1

/-- `decode_patients.py` `clean_values` over the whole column. -/
def clean1List (df : List Row1) : List Row1 :=
  df.map (fun r => { r with value := clean1Value r.value })

/-- `decode_patients_pandas.py` `clean_values`, per cell: lower-case, then
a value starting with `п` or `+` becomes `"Положительный"`, then a value
starting with `о` or `-` becomes `"Отрицательный"` (the vocabulary is
`{"Положительный": ("п", "+"), "Отрицательный": ("о", "-")}`; the second
mask is computed on the already-updated column). -/
def cleanPandasValue (s : String) : String :=
  let v0 := lowerStr s
  let v1 := if startsWithChar v0 'п' || startsWithChar v0 '+' then "Положительный" else v0
  if startsWithChar v1 'о' || startsWithChar v1 '-' then "Отрицательный" else v1

/-- `decode_patients_pandas.py` `clean_values` over the whole column. -/
def cleanPandasList (df : List PRow) : List PRow :=
  df.map (fun r => { r with value := cleanPandasValue r.value })

/-- `SQL_CLEAN_VALUES` of `decode_patients_sql.py`, per cell:
`CASE WHEN "Значение" ~ '^П' THEN '+' WHEN "Значение" ~ '^О' THEN '-'
ELSE "Значение" END`.  The Postgres `~` operator is case-sensitive, so
only the uppercase letters match. -/
def sqlCleanValue (s : String) : String :=
  if startsWithChar s 'П' then "+"
  else if startsWithChar s 'О' then "-"
  else s

/-! ## Range comparison kernels -/

/-- The branch ladder of `decode_patients_pandas.check_range` for one
numeric value: `max_val < curr_val` → `Повышен`, `min_val > curr_val` →
`Понижен`, `min_val <= curr_val <= max_val` → `Норма`; otherwise the
`Заключение` cell keeps its `None`. -/
def pandasRangeCheck (mn mx q : ℚ) : Option String :=
  if mx < q then some "Повышен"
  else if mn > q then some "Понижен"
  else if mn ≤ q ∧ q ≤ mx then some "Норма"
  else none

/-- The branch ladder of `decode_patients.check_range` for one numeric
value: the `Повышен` cell becomes `True` above the range, `False` below
it, and keeps its `None` inside it. -/
def rev1RangeCheck (mn mx q : ℚ) : Option Bool :=
  if mx < q then some true
  else if mn > q then some false
  else none

/-- The numeric branches of `SQL_DECODE_ANALYSIS` for a value that matched
`'^[0-9.]+$'`: `< min_value` → `Понижен`, `> max_value` → `Повышен`,
otherwise `Норма`. -/
def sqlRangeCheck (mn mx q : ℚ) : String :=
  if q < mn then "Понижен"
  else if q > mx then "Повышен"
  else "Норма"

/-! ## `check_range` of `decode_patients.py`

`med_df = med_df[med_df[2] == "N"]`; `df = df[df["Анализ"].isin(...)]`;
then a row loop that looks up min/max by test name and calls
`float(row["Значение"])`.  A `float` failure raises `ValueError`, which is
modelled by `none` for the whole call. -/

/-- The kind-`N` reference rows of the first revision. -/
def kindN (med : List MedRef) : List MedRef := med.filter (fun m => m.kind == "N")

/-- The rows the first revision keeps for its loop: tests present among
the kind-`N` reference names. -/
def rev1Kept (df : List Row1) (med : List MedRef) : List Row1 :=
  df.filter (fun r => (kindN med).any (fun m => m.id == r.test))

/-- The row loop of `decode_patients.check_range`: per row, look up the
reference entry (`.values[0]`, `none` on an empty selection) and parse the
value (`none` on a `float` failure), then write the `Повышен` cell. -/
def checkRows1 (med : List MedRef) : List Row1 → Option (List Row1)
  | [] => some []
  | r :: rs =>
    match med.find? (fun m => m.id == r.test) with
    | none => none
    | some m =>
      match pyFloat r.value with
      | none => none
      | some q =>
        (checkRows1 med rs).map
          (fun t => { r with check := rev1RangeCheck m.min_value m.max_value q } :: t)

/-- `decode_patients.check_range` (on copies of both frames; the result is
the written copy, the caller's frames are untouched). -/
def checkRange1 (df : List Row1) (med : List MedRef) : Option (List Row1) :=
  checkRows1 (kindN med) (rev1Kept df med)

/-! ## `check_range` of `decode_patients_pandas.py` -/

/-- The per-cell classification of `decode_patients_pandas.check_range`:
a cell failing the numeric mask gets its own value as conclusion; a
numeric cell is ranged against the first reference row matching its test.
The outer `Option` is the run: `none` is the `IndexError` of `.values[0]`
on a test absent from `med_df` (this revision has no `isin` filter), or a
`float` failure. -/
def pandasCheckValue (med : List MedRef) (t v : String) : Option (Option String) :=
  if pyNumericMask v then
    match med.find? (fun m => m.id == t) with
    | none => none
    | some m =>
      match pyFloat v with
      | none => none
      | some q => some (pandasRangeCheck m.min_value m.max_value q)
  else some (some v)

/-- The classification stage of `decode_patients_pandas.check_range`:
write every `Заключение` cell (vectorized assignment for the non-numeric
rows, the row loop for the numeric ones). -/
def writeConclRows (med : List MedRef) : List PRow → Option (List PRow)
  | [] => some []
  | r :: rs =>
    match pandasCheckValue med r.test r.value with
    | none => none
    | some c => (writeConclRows med rs).map (fun t => { r with concl := c } :: t)

/-- The bad-count predicate of the pandas aggregation:
`(x != "Норма") & (x != "Отрицательный")` (a `None` cell also counts). -/
def pandasRowBad (c : Option String) : Bool :=
  !(c == some "Норма") && !(c == some "Отрицательный")

/-- `Плохие анализы` of patient `p`: the grouped count of conclusions that
are neither `Норма` nor `Отрицательный`. -/
def pandasBadCount (rows : List PRow) (p : Nat) : Nat :=
  (rows.filter (fun r => r.patient == p)).countP (fun r => pandasRowBad r.concl)

/-- The final conclusion filter of both pandas aggregation and report:
`isin(["Повышен", "Понижен", "Положительный"])`. -/
def conclBad3 (c : Option String) : Bool :=
  c == some "Повышен" || c == some "Понижен" || c == some "Положительный"

/-- `decode_patients_pandas.check_range` in full: classify, group by
patient, keep the patients with at least `test_count` bad conclusions, and
keep their rows whose conclusion is `Повышен`, `Понижен` or
`Положительный`. -/
def pandasFinalTable (med : List MedRef) (df : List PRow) (test_count : Nat) :
    Option (List PRow) :=
  match writeConclRows med df with
  | none => none
  | some rows =>
    some (((rows.filter (fun r => test_count ≤ pandasBadCount rows r.patient)).filter
      (fun r => conclBad3 r.concl)))

/-! ## The heap model for the in-place/copy contrast

Python frames are heap objects; a call receives a reference.  The heap is
a list of frames and a reference is an index.  `decode_patients_pandas.py`
writes the `Заключение` column through the caller's reference, while
`decode_patients.py` first copies (`df = df.copy()`) and writes the copy,
which is a fresh allocation. -/

/-- `decode_patients_pandas.check_range` as a heap transformer: the column
writes land in the caller's slot `i`; the returned final table is a new
frame. -/
def pandasCheckRangeST (heap : List (List PRow)) (i : Nat) (med : List MedRef)
    (test_count : Nat) : Option (List (List PRow) × List PRow) :=
  match heap[i]? with
  | none => none
  | some df =>
    match writeConclRows med df with
    | none => none
    | some written =>
      some (heap.set i written,
        ((written.filter (fun r => test_count ≤ pandasBadCount written r.patient)).filter
          (fun r => conclBad3 r.concl)))

/-- `decode_patients.check_range` as a heap transformer: `df.copy()`
allocates a fresh frame (appended to the heap) and all writes land there;
slot `i` is never written. -/
def rev1CheckRangeST (heap : List (List Row1)) (i : Nat) (med : List MedRef) :
    Option (List (List Row1) × List Row1) :=
  match heap[i]? with
  | none => none
  | some df =>
    match checkRange1 df med with
    | none => none
    | some written => some (heap ++ [written], written)

/-! ## The SQL revision -/

/-- The `'^[0-9.]+$'` regex of `SQL_DECODE_ANALYSIS`. -/
def sqlNumRegex (s : String) : Bool :=
  !s.data.isEmpty && s.data.all (fun c => isDigitChar c || c == '.')

/-- `CAST(.. AS FLOAT)` on the strings this pipeline gates through the
regex; an unparseable string (e.g. `"1.2.3"`) is a SQL error (`none`). -/
def sqlCastFloat (s : String) : Option ℚ := pyFloat s

/-- The `CASE` ladder of `SQL_DECODE_ANALYSIS` for one cleaned value and
its joined reference row; `none` is a `CAST` error aborting the query. -/
def sqlDecodeValue (v : String) (mn mx : ℚ) : Option String :=
  if v == "+" then some "Положительный"
  else if v == "-" then some "Отрицательный"
  else if sqlNumRegex v then
    match sqlCastFloat v with
    | some q => some (sqlRangeCheck mn mx q)
    | none => none
  else some "Некорректное значение"

/-- The inner join `cleaned_data JOIN de.med_an_name ON "Анализ" = id`. -/
def sqlJoin (refs : List MedRef) : List SqlRow → List (SqlRow × MedRef)
  | [] => []
  | r :: rs => (refs.filter (fun m => m.id == r.test)).map (fun m => (r, m)) ++ sqlJoin refs rs

/-- Decode every joined row into a `decoded_data` row. -/
def sqlDecodeRows : List (SqlRow × MedRef) → Option (List DecodedRow)
  | [] => some []
  | (r, m) :: t =>
    match sqlDecodeValue r.value m.min_value m.max_value with
    | none => none
    | some c => (sqlDecodeRows t).map (fun t2 => ⟨r.patient, r.test, m.name, c⟩ :: t2)

/-- `SQL_CLEAN_VALUES` + `SQL_DECODE_ANALYSIS` over the loaded table. -/
def sqlDecodeTable (refs : List MedRef) (rows : List SqlRow) : Option (List DecodedRow) :=
  sqlDecodeRows (sqlJoin refs (rows.map (fun r => { r with value := sqlCleanValue r.value })))

/-- The bad-conclusion test of `SQL_FILTER_PATIENTS`:
`Заключение IN ('Повышен', 'Понижен', 'Положительный')`. -/
def sqlBad3 (c : String) : Bool :=
  c == "Повышен" || c == "Понижен" || c == "Положительный"

/-- `SUM(CASE WHEN .. THEN 1 ELSE 0 END)` for patient `p`. -/
def sqlBadSum (t : List DecodedRow) (p : Nat) : Nat :=
  ((t.filter (fun d => d.patient == p)).map (fun d => if sqlBad3 d.concl then 1 else 0)).sum

/-- The patients of `filtered_patients`: the `GROUP BY` keys whose bad sum
passes `HAVING .. >= 2`. -/
def sqlRetained (t : List DecodedRow) : List Nat :=
  ((t.map (fun d => d.patient)).dedup).filter (fun p => 2 ≤ sqlBadSum t p)

/-- The whole SQL run up to `filtered_patients`-gated reporting rows:
load (comma replacement), clean, decode, `SQL_CHECK_CORRECT_VALUE` (raise
on any `Некорректное значение`, modelled by `none`), then the rows of
retained patients with a bad conclusion. -/
def sqlRun (refs : List MedRef) (rows : List SqlRow) : Option (List DecodedRow) :=
  match sqlDecodeTable refs (rows.map (fun r => { r with value := sqlLoadValue r.value })) with
  | none => none
  | some decoded =>
    if decoded.any (fun d => d.concl == "Некорректное значение") then none
    else
      some ((decoded.filter (fun d => d.patient ∈ sqlRetained decoded)).filter
        (fun d => sqlBad3 d.concl))

/-! ## Spec-side counting definitions (used to state the claims about the
aggregation; worded from the spec's "bad" set) -/

/-- Modelled from the spec: the per-patient count of results whose
classification is `High`, `Low` or `Positive`, over `decoded_data` rows. -/
def specBadCountSql (t : List DecodedRow) (p : Nat) : Nat :=
  (t.filter (fun d => d.patient == p)).countP (fun d => sqlBad3 d.concl)

/-- Modelled from the spec: the per-patient count of results whose
classification is `High`, `Low` or `Positive`, over pandas rows. -/
def specBadCountP (rows : List PRow) (p : Nat) : Nat :=
  (rows.filter (fun r => r.patient == p)).countP (fun r => conclBad3 r.concl)

/-- The five canonical conclusions the pandas classifier can produce from
canonical inputs; anything else in a `Заключение` cell is an invalid
passthrough (or an unwritten cell). -/
def conclCanonical (c : Option String) : Bool :=
  c == some "Норма" || c == some "Отрицательный" || conclBad3 c

/-- The per-patient count of non-canonical `Заключение` cells (invalid
passthrough values and unwritten cells). -/
def pandasInvalidCount (rows : List PRow) (p : Nat) : Nat :=
  (rows.filter (fun r => r.patient == p)).countP (fun r => !conclCanonical r.concl)

/-! ## Helper lemmas -/

theorem ruLowerChar_idem (c : Char) : ruLowerChar (ruLowerChar c) = ruLowerChar c := by
  cases h : lowerPairs.find? (fun p => p.1 == c) with
  | none =>
    have h1 : ruLowerChar c = c := by unfold ruLowerChar; rw [h]
    rw [h1, h1]
  | some p =>
    have h1 : ruLowerChar c = p.2 := by unfold ruLowerChar; rw [h]
    have hmem : p ∈ lowerPairs := List.mem_of_find?_eq_some h
    have hall : lowerPairs.all
        (fun r => (lowerPairs.find? (fun q => q.1 == r.2)).isNone) = true := by decide
    have h2 := List.all_eq_true.mp hall p hmem
    have hnone : lowerPairs.find? (fun q => q.1 == p.2) = none :=
      Option.isNone_iff_eq_none.mp h2
    rw [h1]
    unfold ruLowerChar
    rw [hnone]

theorem ruLowerChar_comp : ruLowerChar ∘ ruLowerChar = ruLowerChar :=
  funext ruLowerChar_idem

theorem lowerStr_data (s : String) : (lowerStr s).data = s.data.map ruLowerChar := rfl

theorem lowerStr_idem (s : String) : lowerStr (lowerStr s) = lowerStr s := by
  unfold lowerStr
  congr 1
  show (s.data.map ruLowerChar).map ruLowerChar = s.data.map ruLowerChar
  rw [List.map_map, ruLowerChar_comp]

theorem startsWithChar_lowerStr_idem (s : String) (c : Char) :
    startsWithChar (lowerStr (lowerStr s)) c = startsWithChar (lowerStr s) c := by
  rw [lowerStr_idem]

/-- Splitting a `countP` along a dichotomy of the counted predicate. -/
theorem countP_split (l : List α) (a b c : α → Bool)
    (h : ∀ x, a x = (b x || c x)) (h2 : ∀ x, b x = true → c x = false) :
    l.countP a = l.countP b + l.countP c := by
  induction l with
  | nil => simp
  | cons x xs ih =>
    rw [List.countP_cons, List.countP_cons, List.countP_cons, h x]
    cases hb : b x with
    | true => rw [h2 x hb]; simp; omega
    | false => cases hc : c x <;> simp <;> omega

/-- `countP` only depends on the predicate's values on the list. -/
theorem countP_ext (l : List α) (p q : α → Bool) (h : ∀ x ∈ l, p x = q x) :
    l.countP p = l.countP q := by
  induction l with
  | nil => rfl
  | cons a as ih =>
    rw [List.countP_cons, List.countP_cons, h a (by simp),
      ih (fun x hx => h x (by simp [hx]))]

/-- `SUM(CASE WHEN p THEN 1 ELSE 0 END)` is a `countP`. -/
theorem sum_ite_eq_countP (l : List α) (p : α → Bool) :
    (l.map (fun x => if p x then 1 else 0)).sum = l.countP p := by
  induction l with
  | nil => simp
  | cons x xs ih =>
    rw [List.map_cons, List.sum_cons, List.countP_cons, ih]
    cases h : p x
    · simp
    · simp
      omega

/-- Any conclusion written by the pandas range ladder is a real string:
the three branches cover the rational line, so the `None` fall-through is
unreachable. -/
theorem pandasRangeCheck_isSome (mn mx q : ℚ) : (pandasRangeCheck mn mx q).isSome := by
  unfold pandasRangeCheck
  split_ifs with h1 h2 h3
  · rfl
  · rfl
  · rfl
  · exact absurd ⟨le_of_not_lt h2, le_of_not_lt h1⟩ h3

/-- On success, every cell written by the pandas classification stage is a
real string (non-numeric rows receive their own value, numeric rows a
range verdict). -/
theorem writeConclRows_isSome (med : List MedRef) (df out : List PRow)
    (h : writeConclRows med df = some out) : ∀ r ∈ out, r.concl.isSome := by
  induction df generalizing out with
  | nil =>
    unfold writeConclRows at h
    cases h
    intro r hr
    cases hr
  | cons x xs ih =>
    unfold writeConclRows at h
    revert h
    cases hcv : pandasCheckValue med x.test x.value with
    | none => intro h; cases h
    | some c =>
      cases hrec : writeConclRows med xs with
      | none => intro h; cases h
      | some t =>
        intro h
        simp only [Option.map_some] at h
        cases h
        intro r hr
        rcases List.mem_cons.mp hr with h | h
        · subst h
          have : c.isSome := by
            revert hcv
            unfold pandasCheckValue
            split_ifs with hm
            · cases hf : List.find? (fun m => m.id == x.test) med with
              | none => intro h; cases h
              | some m =>
                cases hq : pyFloat x.value with
                | none => intro h; cases h
                | some q =>
                  intro h
                  cases h
                  exact pandasRangeCheck_isSome m.min_value m.max_value q
            · intro h
              cases h
              rfl
          exact this
        · exact ih t hrec r h

/-- The first revision's normalizer is idempotent on one cell. -/
theorem clean1Value_idem (s : String) : clean1Value (clean1Value s) = clean1Value s := by
  have hpo : startsWithChar "+" 'о' = false := by decide
  by_cases h1 : startsWithChar (lowerStr s) 'п' = true
  · have e : clean1Value s = "+" := by
      simp [clean1Value, h1, hpo]
    rw [e]
    decide
  · by_cases h2 : startsWithChar (lowerStr s) 'о' = true
    · have e : clean1Value s = "-" := by
        simp [clean1Value, h1, h2]
      rw [e]
      decide
    · have e : clean1Value s = lowerStr s := by
        simp [clean1Value, h1, h2]
      rw [e]
      simp [clean1Value, lowerStr_idem, h1, h2]

/-- The pandas rewrite's normalizer is idempotent on one cell. -/
theorem cleanPandasValue_idem (s : String) :
    cleanPandasValue (cleanPandasValue s) = cleanPandasValue s := by
  have hp1 : startsWithChar "Положительный" 'о' = false := by decide
  have hp2 : startsWithChar "Положительный" '-' = false := by decide
  by_cases h1 : (startsWithChar (lowerStr s) 'п' || startsWithChar (lowerStr s) '+') = true
  · have e : cleanPandasValue s = "Положительный" := by
      simp [cleanPandasValue, h1, hp1, hp2]
    rw [e]
    decide
  · by_cases h2 : (startsWithChar (lowerStr s) 'о' || startsWithChar (lowerStr s) '-') = true
    · have e : cleanPandasValue s = "Отрицательный" := by
        simp [cleanPandasValue, h1, h2]
      rw [e]
      decide
    · have e : cleanPandasValue s = lowerStr s := by
        simp [cleanPandasValue, h1, h2]
      rw [e]
      simp [cleanPandasValue, lowerStr_idem, h1, h2]

/-- Projection of the first revision's row loop: the processed rows are
exactly the input rows (only the `Повышен` cells change). -/
theorem checkRows1_proj (med : List MedRef) (rows out : List Row1)
    (h : checkRows1 med rows = some out) :
    out.map (fun r => (r.patient, r.test, r.value)) =
      rows.map (fun r => (r.patient, r.test, r.value)) := by
  induction rows generalizing out with
  | nil =>
    unfold checkRows1 at h
    cases h
    rfl
  | cons x xs ih =>
    unfold checkRows1 at h
    revert h
    cases hf : List.find? (fun m => m.id == x.test) med with
    | none => intro h; cases h
    | some m =>
      cases hq : pyFloat x.value with
      | none => intro h; cases h
      | some q =>
        cases hrec : checkRows1 med xs with
        | none => intro h; cases h
        | some t =>
          intro h
          simp only [Option.map_some] at h
          cases h
          simp only [List.map_cons]
          rw [ih t hrec]

/-- The first revision's row loop succeeds when every row has a reference
match and a parseable value. -/
theorem checkRows1_isSome (med : List MedRef) (rows : List Row1)
    (hf : ∀ r ∈ rows, (med.find? (fun m => m.id == r.test)).isSome)
    (hq : ∀ r ∈ rows, (pyFloat r.value).isSome) :
    (checkRows1 med rows).isSome := by
  induction rows with
  | nil => rfl
  | cons x xs ih =>
    unfold checkRows1
    obtain ⟨m, hm⟩ := Option.isSome_iff_exists.mp (hf x (by simp))
    rw [hm]
    obtain ⟨q, hqx⟩ := Option.isSome_iff_exists.mp (hq x (by simp))
    rw [hqx]
    have hxs := ih (fun r hr => hf r (by simp [hr])) (fun r hr => hq r (by simp [hr]))
    cases hrec : checkRows1 med xs with
    | none => rw [hrec] at hxs; cases hxs
    | some t => rfl

/-- Under unique reference ids, selecting the references matching a test
returns exactly the one match. -/
theorem filter_singleton_of_nodup (refs : List MedRef) (t : String)
    (hnd : (refs.map (fun m => m.id)).Nodup) (m : MedRef) (hm : m ∈ refs)
    (hid : m.id = t) : refs.filter (fun m2 => m2.id == t) = [m] := by
  induction refs with
  | nil => cases hm
  | cons a as ih =>
    rw [List.map_cons, List.nodup_cons] at hnd
    rcases List.mem_cons.mp hm with h | h
    · subst h
      rw [List.filter_cons, if_pos (by simp [hid])]
      have : as.filter (fun m2 => m2.id == t) = [] := by
        rw [List.filter_eq_nil_iff]
        intro x hx hxt
        exact hnd.1 (by
          rw [← hid] at hxt
          exact (List.mem_map.mpr ⟨x, hx, by simpa using hxt⟩))
      rw [this]
    · have hne : (a.id == t) = false := by
        apply beq_eq_false_iff_ne.mpr
        intro he
        exact hnd.1 (List.mem_map.mpr ⟨m, h, by rw [hid, he]⟩)
      rw [List.filter_cons, if_neg (by simp [hne])]
      exact ih hnd.2 h

/-- The SQL inner join keeps exactly the rows whose test has a reference
entry (assuming unique reference ids). -/
theorem sqlJoin_proj (refs : List MedRef) (rows : List SqlRow)
    (hnd : (refs.map (fun m => m.id)).Nodup) :
    (sqlJoin refs rows).map Prod.fst =
      rows.filter (fun r => refs.any (fun m => m.id == r.test)) := by
  induction rows with
  | nil => rfl
  | cons r rs ih =>
    unfold sqlJoin
    rw [List.map_append, ih, List.filter_cons]
    by_cases h : refs.any (fun m => m.id == r.test) = true
    · obtain ⟨m, hm, hid⟩ := List.any_eq_true.mp h
      rw [filter_singleton_of_nodup refs r.test hnd m hm (by simpa using hid)]
      rw [if_pos (by simp [h])]
      rfl
    · have : refs.filter (fun m2 => m2.id == r.test) = [] := by
        rw [List.filter_eq_nil_iff]
        intro m hm hmt
        exact h (List.any_eq_true.mpr ⟨m, hm, hmt⟩)
      rw [this, if_neg (by simpa using h)]
      rfl

/-- A `Заключение` cell counts as bad exactly when it is `Повышен`,
`Понижен`, `Положительный`, or a non-canonical cell (an invalid
passthrough value or an unwritten `None`). -/
theorem pandasRowBad_eq (c : Option String) :
    pandasRowBad c = (conclBad3 c || !conclCanonical c) := by
  rcases c with _ | v
  · rfl
  · by_cases h1 : v = "Норма"
    · subst h1; decide
    · by_cases h2 : v = "Отрицательный"
      · subst h2; decide
      · have b1 : (v == "Норма") = false := beq_eq_false_iff_ne.mpr h1
        have b2 : (v == "Отрицательный") = false := beq_eq_false_iff_ne.mpr h2
        cases b3 : (v == "Повышен") <;> cases b4 : (v == "Понижен") <;>
          cases b5 : (v == "Положительный") <;>
          simp [pandasRowBad, conclBad3, conclCanonical, b1, b2, b3, b4, b5]

/-- A bad-three conclusion is canonical, hence never double-counted. -/
theorem conclBad3_not_invalid (c : Option String) (h : conclBad3 c = true) :
    (!conclCanonical c) = false := by
  simp [conclCanonical, h]

/-- `clean_values` of `decode_patients.py` is idempotent on the frame. -/
theorem clean1List_idem (df : List Row1) : clean1List (clean1List df) = clean1List df := by
  unfold clean1List
  rw [List.map_map]
  apply List.map_congr_left
  intro r _
  simp [Function.comp, clean1Value_idem]

/-- `clean_values` of `decode_patients_pandas.py` is idempotent on the
frame. -/
theorem cleanPandasList_idem (df : List PRow) :
    cleanPandasList (cleanPandasList df) = cleanPandasList df := by
  unfold cleanPandasList
  rw [List.map_map]
  apply List.map_congr_left
  intro r _
  simp [Function.comp, cleanPandasValue_idem]

/-! ## Claims -/

/-- C7: `filter_patients` retains exactly the rows whose patient has at
least `test_count` raw rows in the frame (counted by grouping the raw rows
by patient code), and the retained set is independent of the rows' values
— rewriting every raw value arbitrarily commutes with the gate, so a row
is dropped or kept regardless of what its value would classify as.  In
`__main__` of both pandas files the gate runs on the raw frame before
`clean_values` and `check_range`. -/
theorem C7_patient_count_gate :
    (∀ (df : List PRow) (k : Nat) (r : PRow),
      r ∈ filterPatients PRow.patient df k ↔
        r ∈ df ∧ k ≤ df.countP (fun r2 => r2.patient == r.patient)) ∧
    (∀ (df : List PRow) (k : Nat) (f : PRow → String),
      filterPatients PRow.patient (df.map (fun r => { r with value := f r })) k =
        (filterPatients PRow.patient df k).map (fun r => { r with value := f r })) := by
  constructor
  · intro df k r
    simp [filterPatients, List.mem_filter]
  · intro df k f
    unfold filterPatients
    rw [List.filter_map]
    congr 1
    apply List.filter_congr
    intro x _
    simp only [Function.comp, List.countP_map, decide_eq_decide]
    exact Iff.of_eq (congrArg (fun n => k ≤ n) (countP_ext df _ _ (fun a _ => rfl)))

/-- C8 counterexample: the pandas rewrite does not return the canonical
marker symbol `"+"` unchanged — it rewrites it to `"Положительный"`. -/
theorem C8_counterexample :
    cleanPandasValue "+" = "Положительный" ∧ ("Положительный" : String) ≠ "+" :=
  ⟨by decide, by decide⟩

/-- C8 (amended): both normalizers are idempotent on every input
collection; the first revision returns the canonical `"+"`/`"-"` markers
unchanged, while the pandas rewrite's canonical vocabulary is the words
`"Положительный"`/`"Отрицательный"` — it rewrites `"+"`/`"-"` to those
words and returns the words themselves unchanged. -/
theorem C8_normalizer_idempotent_amended :
    (∀ df : List Row1, clean1List (clean1List df) = clean1List df) ∧
    (∀ df : List PRow, cleanPandasList (cleanPandasList df) = cleanPandasList df) ∧
    clean1Value "+" = "+" ∧ clean1Value "-" = "-" ∧
    cleanPandasValue "+" = "Положительный" ∧
    cleanPandasValue "-" = "Отрицательный" ∧
    cleanPandasValue "Положительный" = "Положительный" ∧
    cleanPandasValue "Отрицательный" = "Отрицательный" :=
  ⟨clean1List_idem, cleanPandasList_idem, by decide, by decide, by decide, by decide,
    by decide, by decide⟩

/-- C3: for a numeric value with a matched reference range, both the
pandas branch ladder and the SQL `CASE` ladder classify strictly above the
range as `Повышен`, strictly below as `Понижен`, and the inclusive
interval (boundaries included) as `Норма`; the three outcomes partition
the numeric line. -/
theorem C3_range_partition (mn mx q : ℚ) (h : mn ≤ mx) :
    (pandasRangeCheck mn mx q = some "Повышен" ↔ mx < q) ∧
    (pandasRangeCheck mn mx q = some "Понижен" ↔ q < mn) ∧
    (pandasRangeCheck mn mx q = some "Норма" ↔ mn ≤ q ∧ q ≤ mx) ∧
    (sqlRangeCheck mn mx q = "Повышен" ↔ mx < q) ∧
    (sqlRangeCheck mn mx q = "Понижен" ↔ q < mn) ∧
    (sqlRangeCheck mn mx q = "Норма" ↔ mn ≤ q ∧ q ≤ mx) := by
  refine ⟨?_, ?_, ?_, ?_, ?_, ?_⟩ <;>
    (simp only [pandasRangeCheck, sqlRangeCheck]; split_ifs <;> simp_all <;> try linarith)

/-- C3 witness: range `[10, 15]` classifies the boundary values `15` and
`10` as `Норма` in both ladders. -/
theorem C3_range_partition_witness :
    (10 : ℚ) ≤ 15 ∧ pandasRangeCheck 10 15 15 = some "Норма" ∧
      sqlRangeCheck 10 15 10 = "Норма" :=
  ⟨by norm_num,
    (C3_range_partition 10 15 15 (by norm_num)).2.2.1.mpr (by norm_num),
    (C3_range_partition 10 15 10 (by norm_num)).2.2.2.2.2.mpr (by norm_num)⟩

/-- A string starting with one character does not start with another. -/
theorem startsWithChar_ne (s : String) (c d : Char)
    (h : startsWithChar s c = true) (hcd : d ≠ c) : startsWithChar s d = false := by
  unfold startsWithChar at h ⊢
  cases hs : s.data with
  | nil => rw [hs] at h
  | cons a l =>
    rw [hs] at h
    have ha : a = c := by simpa using h
    subst ha
    simpa using fun he => hcd he.symm

/-- C2 counterexample: the pandas rewrite's normalizer does not replace
the comma decimal separator — `"12,5"` is passed through unchanged, fails
the numeric mask, and becomes its own conclusion instead of `Норма`. -/
theorem C2_counterexample :
    cleanPandasValue "12,5" = "12,5" ∧
    pandasCheckValue [⟨"T", "t", "N", 10, 15⟩] "T" "12,5" = some (some "12,5") ∧
    some (some "12,5") ≠ some (some ("Норма" : String)) :=
  ⟨by decide, by decide, by decide⟩

/-- C2 (amended): only the SQL revision's load loop replaces the comma
decimal separator; there `"12,5"` becomes `"12.5"`, which against range
`[10, 15]` decodes to `Норма`.  The pandas rewrite's normalizer leaves the
comma in place, and the value is then passed through as its own
conclusion, whatever the reference table holds. -/
theorem C2_comma_amended :
    sqlLoadValue "12,5" = "12.5" ∧
    sqlDecodeValue (sqlCleanValue (sqlLoadValue "12,5")) 10 15 = some "Норма" ∧
    cleanPandasValue "12,5" = "12,5" ∧
    (∀ (med : List MedRef) (t : String),
      pandasCheckValue med t "12,5" = some (some "12,5")) := by
  refine ⟨by decide, by decide, by decide, ?_⟩
  intro med t
  have h : pyNumericMask "12,5" = false := by decide
  simp [pandasCheckValue, h]

/-- C6 counterexample: the SQL revision's normalizer does not map the
lowercase positive marker `"п"` to the canonical positive symbol — the
`~ '^П'` match is case-sensitive — and the value is then decoded as
`Некорректное значение`, not as `Положительный`. -/
theorem C6_counterexample :
    sqlCleanValue "п" = "п" ∧ ("п" : String) ≠ "+" ∧
    sqlDecodeValue (sqlCleanValue "п") 0 1 = some "Некорректное значение" :=
  ⟨by decide, by decide, by decide⟩

/-- C6 (amended): in the pandas rewrite every value whose lowercased text
starts with `п` is normalized to `"Положительный"` and classified
`Положительный` (a bad-set conclusion); the first revision's normalizer
maps such a value to `"+"`; the SQL revision's match is case-sensitive —
a value starting with uppercase `П` becomes `"+"` (then decoded
`Положительный`), but lowercase `"п"` is left unchanged. -/
theorem C6_positive_marker_amended :
    (∀ s : String, startsWithChar (lowerStr s) 'п' = true →
      cleanPandasValue s = "Положительный" ∧ clean1Value s = "+") ∧
    (∀ (med : List MedRef) (t : String),
      pandasCheckValue med t "Положительный" = some (some "Положительный")) ∧
    conclBad3 (some "Положительный") = true ∧
    sqlCleanValue "п" = "п" ∧
    (∀ s : String, startsWithChar s 'П' = true → sqlCleanValue s = "+") ∧
    (∀ mn mx : ℚ, sqlDecodeValue "+" mn mx = some "Положительный") := by
  have hp1 : startsWithChar "Положительный" 'о' = false := by decide
  have hp2 : startsWithChar "Положительный" '-' = false := by decide
  have hpo : startsWithChar "+" 'о' = false := by decide
  refine ⟨?_, ?_, by decide, by decide, ?_, ?_⟩
  · intro s h
    constructor
    · simp [cleanPandasValue, h, hp1, hp2]
    · simp [clean1Value, h, hpo]
  · intro med t
    have h : pyNumericMask "Положительный" = false := by decide
    simp [pandasCheckValue, h]
  · intro s h
    simp [sqlCleanValue, h]
  · intro mn mx
    rfl

/-- C6 witness: the lowercase marker `"п"` itself. -/
theorem C6_positive_marker_amended_witness :
    cleanPandasValue "п" = "Положительный" ∧ clean1Value "п" = "+" :=
  C6_positive_marker_amended.1 "п" (by decide)

/-- C9: the pandas rewrite's `clean_values` rewrites every value whose
lowercased text begins with `+` to `"Положительный"` and every value
beginning with `-` to `"Отрицательный"` — including signed numeric text
such as `"-5"` — and such a conclusion is assigned directly, so the value
is never compared against any reference range. -/
theorem C9_sign_prefix_rewrite :
    (∀ s : String, startsWithChar (lowerStr s) '+' = true →
      cleanPandasValue s = "Положительный") ∧
    (∀ s : String, startsWithChar (lowerStr s) '-' = true →
      cleanPandasValue s = "Отрицательный") ∧
    cleanPandasValue "-5" = "Отрицательный" ∧
    (∀ (med : List MedRef) (t : String),
      pandasCheckValue med t "Отрицательный" = some (some "Отрицательный")) := by
  have hp1 : startsWithChar "Положительный" 'о' = false := by decide
  have hp2 : startsWithChar "Положительный" '-' = false := by decide
  refine ⟨?_, ?_, by decide, ?_⟩
  · intro s h
    simp [cleanPandasValue, h, hp1, hp2]
  · intro s h
    have h1 : startsWithChar (lowerStr s) 'п' = false :=
      startsWithChar_ne (lowerStr s) '-' 'п' h (by decide)
    have h2 : startsWithChar (lowerStr s) '+' = false :=
      startsWithChar_ne (lowerStr s) '-' '+' h (by decide)
    simp [cleanPandasValue, h, h1, h2]
  · intro med t
    have h : pyNumericMask "Отрицательный" = false := by decide
    simp [pandasCheckValue, h]

/-- C9 witness: the signed numeric value `"-5"`. -/
theorem C9_sign_prefix_rewrite_witness :
    cleanPandasValue "-5" = "Отрицательный" ∧
    pandasCheckValue [⟨"A", "a", "N", 10, 15⟩] "A" "Отрицательный" =
      some (some "Отрицательный") :=
  ⟨C9_sign_prefix_rewrite.2.1 "-5" (by decide),
    C9_sign_prefix_rewrite.2.2.2 [⟨"A", "a", "N", 10, 15⟩] "A"⟩

/-- C1 counterexample: in the pandas rewrite, a patient with one `Повышен`
result and one invalid passthrough (`"xx"`) gets a bad count of `2`,
although only one of the results is classified High/Low/Positive — and
the patient is therefore retained and reported, against the claim's count. -/
theorem C1_counterexample :
    writeConclRows [⟨"A", "a", "N", 10, 15⟩]
        [⟨7, "A", "xx", none⟩, ⟨7, "A", "60", none⟩] =
      some [⟨7, "A", "xx", some "xx"⟩, ⟨7, "A", "60", some "Повышен"⟩] ∧
    pandasBadCount [⟨7, "A", "xx", some "xx"⟩, ⟨7, "A", "60", some "Повышен"⟩] 7 = 2 ∧
    specBadCountP [⟨7, "A", "xx", some "xx"⟩, ⟨7, "A", "60", some "Повышен"⟩] 7 = 1 ∧
    pandasFinalTable [⟨"A", "a", "N", 10, 15⟩]
        [⟨7, "A", "xx", none⟩, ⟨7, "A", "60", none⟩] 2 =
      some [⟨7, "A", "60", some "Повышен"⟩] :=
  ⟨by decide, by decide, by decide, by decide⟩

/-- C1 (amended): in the SQL revision the per-patient bad sum counts
exactly the `Повышен`/`Понижен`/`Положительный` conclusions, and exactly
the patients whose count is at least 2 are retained by
`SQL_FILTER_PATIENTS`; in the pandas rewrite the bad count instead counts
every conclusion other than `Норма` and `Отрицательный` — it equals the
High/Low/Positive count plus the number of non-canonical cells (invalid
passthrough values and unwritten cells). -/
theorem C1_bad_count_amended :
    (∀ (t : List DecodedRow) (p : Nat), sqlBadSum t p = specBadCountSql t p) ∧
    (∀ (t : List DecodedRow) (p : Nat),
      p ∈ sqlRetained t ↔ (∃ d ∈ t, d.patient = p) ∧ 2 ≤ specBadCountSql t p) ∧
    (∀ (rows : List PRow) (p : Nat),
      pandasBadCount rows p = specBadCountP rows p + pandasInvalidCount rows p) := by
  have hsum : ∀ (t : List DecodedRow) (p : Nat), sqlBadSum t p = specBadCountSql t p :=
    fun t p => sum_ite_eq_countP _ _
  refine ⟨hsum, ?_, ?_⟩
  · intro t p
    unfold sqlRetained
    rw [List.mem_filter]
    simp [List.mem_dedup, List.mem_map, hsum t p]
  · intro rows p
    unfold pandasBadCount specBadCountP pandasInvalidCount
    exact countP_split _ _ _ _ (fun r => pandasRowBad_eq r.concl)
      (fun r hb => conclBad3_not_invalid r.concl hb)

/-- C4 counterexample: in the pandas rewrite an invalid row is not
excluded before aggregation — with the invalid row `"abc"` present the
patient reaches bad count 2 and the `Повышен` row is reported, while the
same batch without the invalid row reports nothing. -/
theorem C4_counterexample :
    pandasFinalTable [⟨"A", "a", "N", 10, 15⟩]
        [⟨3, "A", "abc", none⟩, ⟨3, "A", "50", none⟩] 2 =
      some [⟨3, "A", "50", some "Повышен"⟩] ∧
    pandasFinalTable [⟨"A", "a", "N", 10, 15⟩] [⟨3, "A", "50", none⟩] 2 = some [] ∧
    writeConclRows [⟨"A", "a", "N", 10, 15⟩] [⟨3, "A", "abc", none⟩] =
      some [⟨3, "A", "abc", some "abc"⟩] :=
  ⟨by decide, by decide, by decide⟩

/-- C4 (amended): the SQL revision is strict — any `Некорректное значение`
in the decoded batch aborts the run before `SQL_FILTER_PATIENTS`; the
pandas rewrite proceeds without aborting, but it does not exclude invalid
rows before aggregation: every non-canonical conclusion is counted as bad,
and the invalid rows are only omitted from the final report rows. -/
theorem C4_strict_vs_lenient_amended :
    (∀ (refs : List MedRef) (rows : List SqlRow) (decoded : List DecodedRow),
      sqlDecodeTable refs
          (rows.map (fun r => { r with value := sqlLoadValue r.value })) = some decoded →
      (∃ d ∈ decoded, d.concl = "Некорректное значение") →
      sqlRun refs rows = none) ∧
    (∀ c : Option String, conclCanonical c = false → pandasRowBad c = true) ∧
    pandasFinalTable [⟨"A", "a", "N", 10, 15⟩]
        [⟨3, "A", "xyz", none⟩, ⟨3, "A", "51", none⟩] 2 =
      some [⟨3, "A", "51", some "Повышен"⟩] := by
  refine ⟨?_, ?_, by decide⟩
  · intro refs rows decoded hdec hex
    have hany : (decoded.any fun d => d.concl == "Некорректное значение") = true := by
      apply List.any_eq_true.mpr
      obtain ⟨d, hd, hc⟩ := hex
      exact ⟨d, hd, by simpa using hc⟩
    unfold sqlRun
    rw [hdec]
    simp [hany]
  · intro c h
    rw [pandasRowBad_eq c, h]
    simp

/-- C4 witness: a batch holding the unparseable value `"abc"` makes the
SQL run abort. -/
theorem C4_strict_vs_lenient_amended_witness :
    sqlRun [⟨"A", "a", "N", 10, 15⟩] [⟨1, "A", "abc"⟩] = none :=
  C4_strict_vs_lenient_amended.1 [⟨"A", "a", "N", 10, 15⟩] [⟨1, "A", "abc"⟩]
    [⟨1, "A", "a", "Некорректное значение"⟩] (by decide)
    ⟨⟨1, "A", "a", "Некорректное значение"⟩, by decide, rfl⟩

/-- C5 counterexample: in the pandas rewrite a numeric row whose test is
absent from the reference table is not excluded — the whole classification
aborts (the `.values[0]` lookup raises `IndexError`), so the remaining
rows are not processed; dropping the unknown-test row by hand lets the
rest process normally. -/
theorem C5_counterexample :
    writeConclRows [⟨"A", "a", "N", 10, 15⟩]
        [⟨2, "Z", "7", none⟩, ⟨2, "A", "50", none⟩] = none ∧
    writeConclRows [⟨"A", "a", "N", 10, 15⟩] [⟨2, "A", "50", none⟩] =
      some [⟨2, "A", "50", some "Повышен"⟩] :=
  ⟨by decide, by decide⟩

/-- C5 (amended): the first revision and the SQL revision exclude rows
whose test is absent from the reference data and process the remaining
rows normally — the first revision through its `isin` filter over the
kind-`N` reference names, the SQL revision through the inner join; the
pandas rewrite instead aborts with an `IndexError` when a numeric row
references an unknown test. -/
theorem C5_unknown_test_amended :
    (∀ (df : List Row1) (med : List MedRef),
      (∀ r ∈ rev1Kept df med, (pyFloat r.value).isSome) →
      ∃ out, checkRange1 df med = some out ∧
        out.map (fun r => (r.patient, r.test, r.value)) =
          (rev1Kept df med).map (fun r => (r.patient, r.test, r.value))) ∧
    (∀ (df : List Row1) (med : List MedRef) (r : Row1),
      r ∈ rev1Kept df med ↔
        r ∈ df ∧ (kindN med).any (fun m => m.id == r.test) = true) ∧
    (∀ (refs : List MedRef) (rows : List SqlRow),
      (refs.map (fun m => m.id)).Nodup →
      (sqlJoin refs rows).map Prod.fst =
        rows.filter (fun r => refs.any (fun m => m.id == r.test))) ∧
    writeConclRows [⟨"A", "a", "N", 10, 15⟩]
      [⟨1, "B", "5", none⟩, ⟨1, "A", "5", none⟩] = none := by
  refine ⟨?_, ?_, sqlJoin_proj, by decide⟩
  · intro df med hq
    have hf : ∀ r ∈ rev1Kept df med,
        ((kindN med).find? (fun m => m.id == r.test)).isSome := by
      intro r hr
      rw [List.find?_isSome]
      have h2 : (kindN med).any (fun m => m.id == r.test) = true :=
        (List.mem_filter.mp hr).2
      obtain ⟨m, hm, hmt⟩ := List.any_eq_true.mp h2
      exact ⟨m, hm, hmt⟩
    obtain ⟨out, hout⟩ :=
      Option.isSome_iff_exists.mp (checkRows1_isSome (kindN med) (rev1Kept df med) hf hq)
    exact ⟨out, hout, checkRows1_proj _ _ _ hout⟩
  · intro df med r
    simp [rev1Kept, List.mem_filter]

/-- C5 witness: a frame with one unknown-test row and one known numeric
row — the first revision processes exactly the known row; the SQL join
keeps exactly the known row. -/
theorem C5_unknown_test_amended_witness :
    (∃ out, checkRange1 [⟨1, "B", "5", none⟩, ⟨1, "A", "5", none⟩]
        [⟨"A", "a", "N", 10, 15⟩] = some out ∧
      out.map (fun r => (r.patient, r.test, r.value)) =
        (rev1Kept [⟨1, "B", "5", none⟩, ⟨1, "A", "5", none⟩]
          [⟨"A", "a", "N", 10, 15⟩]).map (fun r => (r.patient, r.test, r.value))) ∧
    (sqlJoin [⟨"A", "a", "N", 10, 15⟩] [⟨1, "B", "5"⟩, ⟨1, "A", "5"⟩]).map Prod.fst =
      ([⟨1, "B", "5"⟩, ⟨1, "A", "5"⟩] : List SqlRow).filter
        (fun r => ([⟨"A", "a", "N", 10, 15⟩] : List MedRef).any
          (fun m => m.id == r.test)) :=
  ⟨C5_unknown_test_amended.1 _ _ (by decide),
    C5_unknown_test_amended.2.2.1 _ _ (by decide)⟩

/-- Evaluation of the first revision's heap transformer at a valid slot. -/
theorem rev1CheckRangeST_eq (heap : List (List Row1)) (i : Nat) (med : List MedRef)
    (df : List Row1) (hget : heap[i]? = some df) :
    rev1CheckRangeST heap i med =
      match checkRange1 df med with
      | none => none
      | some written => some (heap ++ [written], written) := by
  unfold rev1CheckRangeST
  rw [hget]

/-- Evaluation of the pandas rewrite's heap transformer at a valid slot. -/
theorem pandasCheckRangeST_eq (heap : List (List PRow)) (i : Nat) (med : List MedRef)
    (tc : Nat) (df : List PRow) (hget : heap[i]? = some df) :
    pandasCheckRangeST heap i med tc =
      match writeConclRows med df with
      | none => none
      | some written =>
        some (heap.set i written,
          ((written.filter (fun r => tc ≤ pandasBadCount written r.patient)).filter
            (fun r => conclBad3 r.concl))) := by
  unfold pandasCheckRangeST
  rw [hget]

/-- C10: `check_range` of the pandas rewrite writes the `Заключение`
column through the caller's reference — after a successful call the
caller's frame is changed whenever it had an unwritten cell — while the
first revision's `check_range` copies its inputs, so the caller's slot is
unchanged by the call. -/
theorem C10_check_range_frame_effect :
    (∀ (heap : List (List Row1)) (i : Nat) (med : List MedRef) (df : List Row1)
        (h2 : List (List Row1)) (res : List Row1),
      heap[i]? = some df → rev1CheckRangeST heap i med = some (h2, res) →
      h2[i]? = some df) ∧
    (∀ (heap : List (List PRow)) (i : Nat) (med : List MedRef) (tc : Nat)
        (df : List PRow) (h2 : List (List PRow)) (ft : List PRow),
      heap[i]? = some df → pandasCheckRangeST heap i med tc = some (h2, ft) →
      (∃ r ∈ df, r.concl = none) → ¬ h2[i]? = some df) := by
  constructor
  · intro heap i med df h2 res hget hst
    rw [rev1CheckRangeST_eq heap i med df hget] at hst
    cases hcr : checkRange1 df med with
    | none => rw [hcr] at hst; cases hst
    | some written =>
      rw [hcr] at hst
      injection hst with hp
      cases hp
      rw [List.getElem?_append, if_pos (List.getElem?_eq_some.mp hget).1]
      exact hget
  · intro heap i med tc df h2 ft hget hst hex hcontra
    rw [pandasCheckRangeST_eq heap i med tc df hget] at hst
    cases hw : writeConclRows med df with
    | none => rw [hw] at hst; cases hst
    | some written =>
      rw [hw] at hst
      injection hst with hp
      cases hp
      have hlt : i < heap.length := (List.getElem?_eq_some.mp hget).1
      rw [List.getElem?_set_eq_of_lt written hlt] at hcontra
      have hwd : written = df := by injection hcontra
      obtain ⟨r, hr, hrc⟩ := hex
      have hsome := writeConclRows_isSome med df written hw r (by rw [hwd]; exact hr)
      rw [hrc] at hsome
      cases hsome

/-- C10 witness: a one-row, one-slot heap — the first revision leaves the
slot unchanged, the pandas rewrite does not. -/
theorem C10_check_range_frame_effect_witness :
    (∃ h2 res, rev1CheckRangeST [[⟨1, "A", "12", (none : Option Bool)⟩]] 0
        [⟨"A", "a", "N", 10, 15⟩] = some (h2, res) ∧
      h2[0]? = some [⟨1, "A", "12", (none : Option Bool)⟩]) ∧
    (∃ h2 ft, pandasCheckRangeST [[⟨1, "A", "12", (none : Option String)⟩]] 0
        [⟨"A", "a", "N", 10, 15⟩] 2 = some (h2, ft) ∧
      ¬ h2[0]? = some [⟨1, "A", "12", (none : Option String)⟩]) := by
  constructor
  · refine ⟨[[⟨1, "A", "12", none⟩], [⟨1, "A", "12", none⟩]], [⟨1, "A", "12", none⟩],
      by decide, ?_⟩
    exact C10_check_range_frame_effect.1 [[⟨1, "A", "12", none⟩]] 0
      [⟨"A", "a", "N", 10, 15⟩] [⟨1, "A", "12", none⟩]
      [[⟨1, "A", "12", none⟩], [⟨1, "A", "12", none⟩]] [⟨1, "A", "12", none⟩]
      (by decide) (by decide)
  · refine ⟨[[⟨1, "A", "12", some "Норма"⟩]], [], by decide, ?_⟩
    exact C10_check_range_frame_effect.2 [[⟨1, "A", "12", none⟩]] 0
      [⟨"A", "a", "N", 10, 15⟩] 2 [⟨1, "A", "12", none⟩]
      [[⟨1, "A", "12", some "Норма"⟩]] [] (by decide) (by decide)
      ⟨⟨1, "A", "12", none⟩, by decide, rfl⟩
